import Mathlib

/-!
# mon-put-instance-data: the `metrics` package

A shallow embedding of `metrics/swarm.go`, `metrics/docker.go` and
`metrics/metric.go`, followed by theorems about the aggregation loop, the
dispatch loop, the service-name regexp, the per-container bookkeeping of
`Docker.Collect` and the two CPU-percentage formulas.

Conventions of the embedding.

* `uint64` / `uint32` fields are `Nat`; arithmetic on them is written with an
  explicit `% 2 ^ 64`.
* `float64` is `F64`: a finite value `(-1)^neg * m * 2^e` kept in the binary64
  canonical form, the two infinities, and NaN.  Every operation rounds to
  nearest, ties to even, as Go does.
* `time.Time` is an `Int` count of nanoseconds; `time.Duration` is an `Int`
  saturated to the `int64` range.
* A Go `map[string]V` is an association list with at most one pair per key;
  only `GoMap.get` and `GoMap.set` are used on it.
* `log.Fatal` ends the process: a function that can reach it returns `Option`.
-/

namespace Metrics

/-! ## float64 -/

/-- Go `float64`.  `fin neg m e` is the finite value `(-1)^neg * m * 2^e`; zero is
`fin neg 0 0`, a normal number has `2^52 ≤ m < 2^53` and `-1074 ≤ e ≤ 971`, a
subnormal number has `m < 2^52` and `e = -1074`. -/
inductive F64 where
  | fin (neg : Bool) (m : Nat) (e : Int)
  | inf (neg : Bool)
  | nan
  deriving DecidableEq, Repr

/-- Number of binary digits of `n`, by repeated halving; `fuel` bounds the number
of halvings and `fuel = n` is always enough. -/
def bitLenAux : Nat → Nat → Nat
  | 0, _ => 0
  | fuel + 1, n => if n = 0 then 0 else bitLenAux fuel (n / 2) + 1

/-- Number of binary digits of `n` (`0` for `n = 0`). -/
def bitLen (n : Nat) : Nat := bitLenAux n n

/-- Floor of the base-2 logarithm of the positive fraction `n / d`. -/
def floorLog2 (n d : Nat) : Int :=
  let a := bitLen n - 1
  let b := bitLen d - 1
  if d * 2 ^ a ≤ n * 2 ^ b then (a : Int) - (b : Int) else (a : Int) - (b : Int) - 1

/-- Round the non-negative integer fraction `N / D` to the nearest integer, ties
to even. -/
def roundHalfEven (N D : Nat) : Nat :=
  let q := N / D
  let r := N % D
  if 2 * r < D then q
  else if D < 2 * r then q + 1
  else if q % 2 = 0 then q else q + 1

/-- The binary64 value nearest to `(-1)^neg * (n / d) * 2^e` (ties to even),
with gradual underflow and overflow to infinity. `d` is positive. -/
def rndFrac (neg : Bool) (n d : Nat) (e : Int) : F64 :=
  if n = 0 then .fin neg 0 0
  else
    let u : Int := max (floorLog2 n d + e) (-1022) - 52
    let s : Int := e - u
    let N : Nat := if 0 ≤ s then n * 2 ^ s.toNat else n
    let D : Nat := if 0 ≤ s then d else d * 2 ^ (-s).toNat
    let m := roundHalfEven N D
    let m1 : Nat := if m = 2 ^ 53 then 2 ^ 52 else m
    let u1 : Int := if m = 2 ^ 53 then u + 1 else u
    if 971 < u1 then .inf neg
    else if m1 = 0 then .fin neg 0 0
    else .fin neg m1 u1

namespace F64

/-- Conversion `float64(x)` of an unsigned integer. -/
def ofNat (x : Nat) : F64 := rndFrac false x 1 0

/-- Conversion `float64(x)` of a signed integer. -/
def ofInt (x : Int) : F64 := rndFrac (decide (x < 0)) x.natAbs 1 0

/-- Go `x * y` on float64. -/
def mul : F64 → F64 → F64
  | .fin s1 m1 e1, .fin s2 m2 e2 => rndFrac (xor s1 s2) (m1 * m2) 1 (e1 + e2)
  | .fin s1 m1 _, .inf s2 => if m1 = 0 then .nan else .inf (xor s1 s2)
  | .inf s1, .fin s2 m2 _ => if m2 = 0 then .nan else .inf (xor s1 s2)
  | .inf s1, .inf s2 => .inf (xor s1 s2)
  | .nan, _ => .nan
  | _, .nan => .nan

/-- Go `x / y` on float64: a zero divisor gives an infinity, or NaN for `0 / 0`. -/
def div : F64 → F64 → F64
  | .fin s1 m1 e1, .fin s2 m2 e2 =>
    if m2 = 0 then (if m1 = 0 then .nan else .inf (xor s1 s2))
    else rndFrac (xor s1 s2) m1 m2 (e1 - e2)
  | .fin s1 _ _, .inf s2 => .fin (xor s1 s2) 0 0
  | .inf s1, .fin s2 _ _ => .inf (xor s1 s2)
  | .inf _, .inf _ => .nan
  | .nan, _ => .nan
  | _, .nan => .nan

/-- Go `x - y` on float64. -/
def sub : F64 → F64 → F64
  | .fin s1 m1 e1, .fin s2 m2 e2 =>
    let e := min e1 e2
    let a : Int := (if s1 then -1 else 1) * ((m1 * 2 ^ (e1 - e).toNat : Nat) : Int)
    let b : Int := (if s2 then -1 else 1) * ((m2 * 2 ^ (e2 - e).toNat : Nat) : Int)
    let d := a - b
    if d = 0 then .fin (s1 && !s2) 0 0
    else rndFrac (decide (d < 0)) d.natAbs 1 e
  | .fin _ _ _, .inf s2 => .inf (!s2)
  | .inf s1, .fin _ _ _ => .inf s1
  | .inf s1, .inf s2 => if s1 = s2 then .nan else .inf s1
  | .nan, _ => .nan
  | _, .nan => .nan

/-- Neither an infinity nor NaN. -/
def isFinite : F64 → Bool
  | .fin _ _ _ => true
  | _ => false

/-- The rational number a finite value stands for. -/
def toRat : F64 → Option ℚ
  | .fin s m e => some ((if s then -1 else 1) * (m : ℚ) * (2 : ℚ) ^ e)
  | _ => none

end F64

/-! ## `regexp`: the package variable `re` and `ReplaceAllString(name, "")`

`re = regexp.MustCompile("-[[:digit:]]+|_[[:alnum:]]{4}_[[:digit:]]+_[[:digit:]]+_[[:digit:]]+$$")`.
Alternation binds loosest, so the pattern has two branches:

* `-[[:digit:]]+` with no anchor;
* `_[[:alnum:]]{4}_[[:digit:]]+_[[:digit:]]+_[[:digit:]]+$$`, anchored at the end
  of the text.

The branches start with different characters, and a greedy run of digits is
always followed by a non-digit or the end of the text, so a match starting at a
given position is unique and taking maximal digit runs loses no match. -/

/-- Pattern `[[:digit:]]+` at the head of `s`: the length of the maximal run of ASCII
digits, when it is not empty. -/
def digitsPlus (s : List Char) : Option Nat :=
  let n := (s.takeWhile Char.isDigit).length
  if n = 0 then none else some n

/-- First branch, `-[[:digit:]]+`: length of its match at the head of `s`. -/
def matchDash : List Char → Option Nat
  | '-' :: rest => (digitsPlus rest).map (· + 1)
  | _ => none

/-- Pattern `_[[:digit:]]+` at the head of `s`: length of the match. -/
def underscoreDigits : List Char → Option Nat
  | '_' :: rest => (digitsPlus rest).map (· + 1)
  | _ => none

/-- Second branch, `_[[:alnum:]]{4}_[[:digit:]]+_[[:digit:]]+_[[:digit:]]+$$`:
length of its match at the head of `s`; the match must reach the end of `s`. -/
def matchTask : List Char → Option Nat
  | '_' :: a :: b :: c :: d :: rest =>
    if a.isAlphanum && b.isAlphanum && c.isAlphanum && d.isAlphanum then
      (underscoreDigits rest).bind fun n1 =>
      (underscoreDigits (rest.drop n1)).bind fun n2 =>
      (underscoreDigits ((rest.drop n1).drop n2)).bind fun n3 =>
      if ((rest.drop n1).drop n2).drop n3 = [] then some (5 + n1 + n2 + n3) else none
    else none
  | _ => none

/-- Length of the match of `re` that starts at the head of `s` (leftmost-first:
the first branch is tried before the second). -/
def reMatchLen (s : List Char) : Option Nat :=
  (matchDash s).orElse fun _ => matchTask s

/-- Body of `re.ReplaceAllString(_, "")`: scan left to right; `skip` counts the
characters of the current match still to delete.  A character outside every
match is copied. -/
def replaceAllEmpty : Nat → List Char → List Char
  | _, [] => []
  | skip + 1, _ :: rest => replaceAllEmpty skip rest
  | 0, c :: rest =>
    match reMatchLen (c :: rest) with
    | some n => replaceAllEmpty (n - 1) rest
    | none => c :: replaceAllEmpty 0 rest

/-- Go `re.ReplaceAllString(name, "")`: every non-overlapping match of `re`, found
leftmost first, is deleted. -/
def reReplaceAllString (name : String) : String :=
  String.mk (replaceAllEmpty 0 name.data)

/-! ## metric.go -/

/-- Go `nanoseconds = 1e9`, an untyped constant. -/
def nanoseconds : Nat := 1000000000

/-- Go `maxMetricDataNum = 20`: the most datapoints one `Publish` call may carry. -/
def maxMetricDataNum : Nat := 20

/-- Go `cloudwatch.StandardUnit`, the four units the package uses. -/
inductive StandardUnit where
  | Bytes
  | Seconds
  | Percent
  | Count
  deriving DecidableEq, Repr

/-- Go `cloudwatch.Dimension`. -/
structure Dimension where
  Name : String
  Value : String
  deriving DecidableEq, Repr

/-- Go `cloudwatch.MetricDatum`, the fields `constructMetricDatum` fills. -/
structure MetricDatum where
  MetricName : String
  Dimensions : List Dimension
  Unit : StandardUnit
  Value : F64
  deriving DecidableEq, Repr

/-- Go `constructMetricDatum`: a one-element slice. -/
def constructMetricDatum (metricName : String) (value : F64) (unit : StandardUnit)
    (dimensions : List Dimension) : List MetricDatum :=
  [{ MetricName := metricName, Dimensions := dimensions, Unit := unit, Value := value }]

/-- One `c.Publish(slice, namespace)` call: the slice and the namespace. -/
abbrev PublishCall := List MetricDatum × String

/-- The dispatch loop of `Docker.Collect` and `Swarm.Collect`, from index `idx` on:
`for ; idx < len(metricArr); idx += maxMetricDataNum { ...; c.Publish(slice, namespace) }`.
The result is the sequence of `Publish` calls in call order.  `idx` is a 64-bit
`int` and no slice of `MetricDatum` values is long enough for
`idx + maxMetricDataNum` to wrap, so the index is a natural number. -/
def dispatchFrom (metricArr : List MetricDatum) (ns : String) (idx : Nat) : List PublishCall :=
  if idx < metricArr.length then
    let slice :=
      if idx + maxMetricDataNum ≥ metricArr.length then metricArr.drop idx
      else (metricArr.drop idx).take maxMetricDataNum
    (slice, ns) :: dispatchFrom metricArr ns (idx + maxMetricDataNum)
  else []
termination_by metricArr.length - idx
decreasing_by
  simp only [maxMetricDataNum]
  omega

/-- The dispatch loop, started at `idx := 0`. -/
def dispatch (metricArr : List MetricDatum) (ns : String) : List PublishCall :=
  dispatchFrom metricArr ns 0

/-! ## Go maps -/

/-- A Go `map[string]V`. -/
abbrev GoMap (V : Type) := List (String × V)

/-- The lookup `v, ok := m[k]`. -/
def GoMap.get {V : Type} : GoMap V → String → Option V
  | [], _ => none
  | (k1, v) :: rest, k => if k1 = k then some v else GoMap.get rest k

/-- The assignment `m[k] = v`. -/
def GoMap.set {V : Type} : GoMap V → String → V → GoMap V
  | [], k, v => [(k, v)]
  | (k1, v1) :: rest, k, v => if k1 = k then (k, v) :: rest else (k1, v1) :: GoMap.set rest k v

/-! ## swarm.go -/

/-- Go `ServicesStats`. -/
structure ServicesStats where
  TotalUsage : Nat
  SystemUsage : Nat
  PreTotalUsage : Nat
  PreSystemUsage : Nat
  OnlineCPUs : Nat
  MemoryUsage : Nat
  MemoryMaxUsage : Nat
  deriving DecidableEq, Repr

namespace types

/-- Go `types.CPUUsage`, the field read. -/
structure CPUUsage where
  TotalUsage : Nat
  deriving DecidableEq, Repr

/-- Go `types.CPUStats`, the fields read. -/
structure CPUStats where
  CPUUsage : types.CPUUsage
  SystemUsage : Nat
  OnlineCPUs : Nat
  deriving DecidableEq, Repr

/-- Go `types.MemoryStats`, the fields read. -/
structure MemoryStats where
  Usage : Nat
  MaxUsage : Nat
  deriving DecidableEq, Repr

/-- Go `types.StatsJSON`, the fields read. -/
structure StatsJSON where
  Name : String
  CPUStats : types.CPUStats
  PreCPUStats : types.CPUStats
  MemoryStats : types.MemoryStats
  deriving DecidableEq, Repr

/-- Go `types.Container`, the fields read. -/
structure Container where
  ID : String
  Labels : GoMap String
  deriving DecidableEq, Repr

end types

/-- One iteration of `for v := range statsCh` in `Swarm.Collect`.  In the `else`
branch `entry` is the copy of the map value that `entry, ok := swarm[v.Name]`
made: the six additions update that copy and nothing assigns it back to
`swarm[v.Name]`, so the map is left as it was. -/
def aggregateStep (swarm : GoMap ServicesStats) (v : types.StatsJSON) : GoMap ServicesStats :=
  match GoMap.get swarm v.Name with
  | none =>
    GoMap.set swarm v.Name
      { TotalUsage := v.CPUStats.CPUUsage.TotalUsage
        SystemUsage := v.CPUStats.SystemUsage
        PreTotalUsage := v.PreCPUStats.CPUUsage.TotalUsage
        PreSystemUsage := v.PreCPUStats.SystemUsage
        OnlineCPUs := v.CPUStats.OnlineCPUs
        MemoryUsage := v.MemoryStats.Usage
        MemoryMaxUsage := v.MemoryStats.MaxUsage }
  | some entry =>
    let _entry : ServicesStats :=
      { entry with
        TotalUsage := (entry.TotalUsage + v.CPUStats.CPUUsage.TotalUsage) % 2 ^ 64
        SystemUsage := (entry.SystemUsage + v.CPUStats.SystemUsage) % 2 ^ 64
        PreTotalUsage := (entry.PreTotalUsage + v.PreCPUStats.CPUUsage.TotalUsage) % 2 ^ 64
        PreSystemUsage := (entry.PreSystemUsage + v.PreCPUStats.SystemUsage) % 2 ^ 64
        MemoryUsage := (entry.MemoryUsage + v.MemoryStats.Usage) % 2 ^ 64
        MemoryMaxUsage := (entry.MemoryMaxUsage + v.MemoryStats.MaxUsage) % 2 ^ 64 }
    swarm

/-- The drain loop of `Swarm.Collect`: `swarm` after `for v := range statsCh`,
`received` being the snapshots in the order the channel delivered them. -/
def aggregate (received : List types.StatsJSON) : GoMap ServicesStats :=
  received.foldl aggregateStep []

/-- The `percentCPU` of `Swarm.Collect`:
`float64(TotalUsage-PreTotalUsage) / float64(SystemUsage-PreSystemUsage) * float64(OnlineCPUs) * 100`,
the two differences taken in `uint64`. -/
def Swarm.percentCPU (stats : ServicesStats) : F64 :=
  F64.mul
    (F64.mul
      (F64.div
        (F64.ofNat ((stats.TotalUsage + 2 ^ 64 - stats.PreTotalUsage) % 2 ^ 64))
        (F64.ofNat ((stats.SystemUsage + 2 ^ 64 - stats.PreSystemUsage) % 2 ^ 64)))
      (F64.ofNat stats.OnlineCPUs))
    (F64.ofNat 100)

/-- The dimensions `Swarm.Collect` attaches to the datapoints of service `name`. -/
def Swarm.dimensions (instanceID name : String) : List Dimension :=
  [{ Name := "InstanceId", Value := instanceID }, { Name := "ServiceName", Value := name }]

/-- The body of `for name, stats := range swarm`: the eight datapoints appended
to `metricArr` for one service. -/
def Swarm.serviceData (instanceID name : String) (stats : ServicesStats) : List MetricDatum :=
  let dimensions := Swarm.dimensions instanceID name
  constructMetricDatum "ServiceCPUPercent" (Swarm.percentCPU stats) .Percent dimensions
    ++ constructMetricDatum "ServiceCPUUsage" (F64.ofNat stats.TotalUsage) .Seconds dimensions
    ++ constructMetricDatum "ServiceCPUSystem" (F64.ofNat stats.SystemUsage) .Seconds dimensions
    ++ constructMetricDatum "ServicePreCPUUsage" (F64.ofNat stats.PreTotalUsage) .Seconds dimensions
    ++ constructMetricDatum "ServicePreCPUSystem" (F64.ofNat stats.PreSystemUsage) .Seconds dimensions
    ++ constructMetricDatum "ServiceOnlineCPUs" (F64.ofNat stats.OnlineCPUs) .Count dimensions
    ++ constructMetricDatum "ServiceMemoryUsage" (F64.ofNat stats.MemoryUsage) .Bytes dimensions
    ++ constructMetricDatum "ServiceMemoryMaxUsage" (F64.ofNat stats.MemoryMaxUsage) .Bytes dimensions

/-- The loop `for name, stats := range swarm`: `metricArr` when it ends.  Go leaves
the iteration order of a map open; the entries are visited here in the order of
the association list, and nothing below depends on that order. -/
def Swarm.metricArr (instanceID : String) (swarm : GoMap ServicesStats) : List MetricDatum :=
  swarm.foldl (fun metricArr p => metricArr ++ Swarm.serviceData instanceID p.1 p.2) []

/-- What `Swarm.Collect` reads from the Docker daemon: `dockerCli.ContainerList`
and, per container id, the decoded body of `dockerCli.ContainerStats`; `none` is
an error, which ends in `log.Fatal`. -/
structure SwarmEnv where
  ContainerList : Option (List types.Container)
  ContainerStats : String → Option types.StatsJSON

/-- Go `collectStats`: the snapshot sent on the channel for container `c`, its `Name`
overwritten with the normalised `com.docker.swarm.service.name` label (a missing
label reads as the empty string). -/
def collectStats (env : SwarmEnv) (c : types.Container) : Option types.StatsJSON :=
  let name := (GoMap.get c.Labels "com.docker.swarm.service.name").getD ""
  let name := reReplaceAllString name
  (env.ContainerStats c.ID).map fun v => { v with Name := name }

/-- Go `Swarm.Collect`: the `Publish` calls of one cycle.  `arrival` is the schedule:
it lists the containers in the order their goroutines deliver on `statsCh`, a
permutation of the container list. -/
def Swarm.Collect (env : SwarmEnv) (instanceID ns : String)
    (arrival : List types.Container → List types.Container) : Option (List PublishCall) :=
  env.ContainerList.bind fun containers =>
  ((arrival containers).mapM (collectStats env)).map fun received =>
  dispatch (Swarm.metricArr instanceID (aggregate received)) ns

/-! ## docker.go -/

/-- Go `docker.CgroupDockerStat`, the fields read. -/
structure CgroupDockerStat where
  ContainerID : String
  Name : String
  Image : String
  deriving DecidableEq, Repr

/-- Go `docker.CgroupMemStat`, the fields read. -/
structure CgroupMemStat where
  MemUsageInBytes : Nat
  MemMaxUsageInBytes : Nat
  deriving DecidableEq, Repr

/-- Go `cpu.TimesStat`, the fields read. -/
structure TimesStat where
  User : F64
  System : F64
  deriving DecidableEq, Repr

/-- What `Docker.Collect` reads from the host; `none` is an error, which ends in
`log.Fatal`.  The cgroup readers are applied to a container id and a base path. -/
structure DockerEnv where
  GetDockerStat : Option (List CgroupDockerStat)
  getCgroupMountPath : Option String
  CgroupMem : String → String → Option CgroupMemStat
  CgroupCPU : String → String → Option TimesStat
  CgroupCPUUsageDocker : String → Option F64

/-- The package variables `usage_history` and `last_time_at`. -/
structure DockerState where
  usage_history : GoMap F64
  last_time_at : Int

/-- Go `t.Sub(u)` as a `time.Duration`: the difference in nanoseconds, saturated to
the `int64` range. -/
def timeSub (t u : Int) : Int :=
  max (-(2 ^ 63)) (min (t - u) (2 ^ 63 - 1))

/-- The dimensions `Docker.Collect` attaches to the datapoints of a container. -/
def Docker.dimensions (instanceID : String) (container : CgroupDockerStat) : List Dimension :=
  [{ Name := "InstanceId", Value := instanceID },
   { Name := "ContainerId", Value := container.ContainerID },
   { Name := "ContainerName", Value := container.Name },
   { Name := "DockerImage", Value := container.Image }]

/-- The `percentCPU` of `Docker.Collect`:
`(containerCPUUsage - pastContainerCPUUsage) / float64(new_last_time_at.Sub(last_time_at)) * 100 * nanoseconds`. -/
def Docker.percentCPU (containerCPUUsage pastContainerCPUUsage : F64)
    (new_last_time_at last_time_at : Int) : F64 :=
  F64.mul
    (F64.mul
      (F64.div (F64.sub containerCPUUsage pastContainerCPUUsage)
        (F64.ofInt (timeSub new_last_time_at last_time_at)))
      (F64.ofNat 100))
    (F64.ofNat nanoseconds)

/-- The body of `for _, container := range containers` in `Docker.Collect`, on the
pair `(metricArr, new_usage_history)`. -/
def Docker.collectContainer (env : DockerEnv) (instanceID base : String) (st : DockerState)
    (new_last_time_at : Int) (acc : List MetricDatum × GoMap F64)
    (container : CgroupDockerStat) : Option (List MetricDatum × GoMap F64) :=
  let dimensions := Docker.dimensions instanceID container
  (env.CgroupMem container.ContainerID (base ++ "/memory/docker")).bind fun containerMemory =>
  let metricArr := acc.1 ++ constructMetricDatum "ContainerMemory"
    (F64.ofNat containerMemory.MemUsageInBytes) .Bytes dimensions
  (env.CgroupCPU container.ContainerID (base ++ "/cpuacct/docker")).bind fun containerCPU =>
  let metricArr := metricArr ++ constructMetricDatum "ContainerCPUUser"
    containerCPU.User .Seconds dimensions
  let metricArr := metricArr ++ constructMetricDatum "ContainerCPUSystem"
    containerCPU.System .Seconds dimensions
  (env.CgroupCPUUsageDocker container.ContainerID).bind fun containerCPUUsage =>
  let new_usage_history := GoMap.set acc.2 container.ContainerID containerCPUUsage
  match GoMap.get st.usage_history container.ContainerID with
  | some pastContainerCPUUsage =>
    let percentCPU := Docker.percentCPU containerCPUUsage pastContainerCPUUsage
      new_last_time_at st.last_time_at
    some (metricArr ++ constructMetricDatum "ContainerCPUUsage" percentCPU .Percent dimensions,
      new_usage_history)
  | none => some (metricArr, new_usage_history)

/-- The loop `for _, container := range containers` of `Docker.Collect`. -/
def Docker.collectAll (env : DockerEnv) (instanceID base : String) (st : DockerState)
    (new_last_time_at : Int) :
    List MetricDatum × GoMap F64 → List CgroupDockerStat → Option (List MetricDatum × GoMap F64)
  | acc, [] => some acc
  | acc, container :: rest =>
    (Docker.collectContainer env instanceID base st new_last_time_at acc container).bind
      fun acc1 => Docker.collectAll env instanceID base st new_last_time_at acc1 rest

/-- Go `Docker.Collect`: one cycle from the state `st`.  `now1` is the clock reading of
the `time.Now()` that initialises `new_last_time_at`, `now2` the reading of the
`time.Now()` in the final swap.  The result is the new state and the `Publish`
calls. -/
def Docker.Collect (env : DockerEnv) (instanceID ns : String) (st : DockerState)
    (now1 now2 : Int) : Option (DockerState × List PublishCall) :=
  env.GetDockerStat.bind fun containers =>
  env.getCgroupMountPath.bind fun base =>
  let new_last_time_at := now1
  (Docker.collectAll env instanceID base st new_last_time_at ([], []) containers).map fun acc =>
  let calls := dispatch acc.1 ns
  ({ usage_history := acc.2, last_time_at := now2 }, calls)

/-! ## Specification vocabulary and sample inputs -/

/-- Go `init` of docker.go: an empty `usage_history` and the clock reading `now`. -/
def Docker.init (now : Int) : DockerState :=
  { usage_history := [], last_time_at := now }

/-- The entry the `!ok` branch of the drain loop stores for snapshot `v`. -/
def seedStats (v : types.StatsJSON) : ServicesStats :=
  { TotalUsage := v.CPUStats.CPUUsage.TotalUsage
    SystemUsage := v.CPUStats.SystemUsage
    PreTotalUsage := v.PreCPUStats.CPUUsage.TotalUsage
    PreSystemUsage := v.PreCPUStats.SystemUsage
    OnlineCPUs := v.CPUStats.OnlineCPUs
    MemoryUsage := v.MemoryStats.Usage
    MemoryMaxUsage := v.MemoryStats.MaxUsage }

/-- The first snapshot of `received` that carries the service name `name`. -/
def firstNamed (received : List types.StatsJSON) (name : String) : Option types.StatsJSON :=
  received.find? fun v => decide (v.Name = name)

/-- The `uint64` sum of the field `f` over the snapshots of `received` that carry
the service name `name`. -/
def sumNamed (received : List types.StatsJSON) (name : String) (f : types.StatsJSON → Nat) : Nat :=
  ((received.filter fun v => decide (v.Name = name)).map f).sum % 2 ^ 64

/-- The `ServiceCPUPercent` datapoint of service `name` with entry `stats`: the
first datapoint `Swarm.Collect` constructs in the loop over the map. -/
def Swarm.percentDatum (instanceID name : String) (stats : ServicesStats) : MetricDatum :=
  { MetricName := "ServiceCPUPercent", Dimensions := Swarm.dimensions instanceID name,
    Unit := .Percent, Value := Swarm.percentCPU stats }

/-- A snapshot of a replica of service `web`. -/
def sampleWeb1 : types.StatsJSON :=
  { Name := "web"
    CPUStats := { CPUUsage := { TotalUsage := 1 }, SystemUsage := 10, OnlineCPUs := 2 }
    PreCPUStats := { CPUUsage := { TotalUsage := 0 }, SystemUsage := 5, OnlineCPUs := 2 }
    MemoryStats := { Usage := 100, MaxUsage := 200 } }

/-- A snapshot of another replica of service `web`. -/
def sampleWeb2 : types.StatsJSON :=
  { Name := "web"
    CPUStats := { CPUUsage := { TotalUsage := 2 }, SystemUsage := 20, OnlineCPUs := 2 }
    PreCPUStats := { CPUUsage := { TotalUsage := 1 }, SystemUsage := 15, OnlineCPUs := 2 }
    MemoryStats := { Usage := 300, MaxUsage := 400 } }

/-- A snapshot equal to `sampleWeb1` in every summed field, taken from a replica
that sees four CPUs instead of two. -/
def sampleWeb4Cpu : types.StatsJSON :=
  { sampleWeb1 with
    CPUStats := { CPUUsage := { TotalUsage := 1 }, SystemUsage := 10, OnlineCPUs := 4 } }

/-- A snapshot of the only replica of service `db`. -/
def sampleDb : types.StatsJSON :=
  { Name := "db"
    CPUStats := { CPUUsage := { TotalUsage := 7 }, SystemUsage := 70, OnlineCPUs := 1 }
    PreCPUStats := { CPUUsage := { TotalUsage := 3 }, SystemUsage := 30, OnlineCPUs := 1 }
    MemoryStats := { Usage := 50, MaxUsage := 60 } }

/-- A service entry whose two system counters coincide. -/
def sampleIdle : ServicesStats :=
  { TotalUsage := 9, SystemUsage := 5, PreTotalUsage := 4, PreSystemUsage := 5,
    OnlineCPUs := 2, MemoryUsage := 1, MemoryMaxUsage := 1 }

/-- A running container. -/
def sampleContainer : CgroupDockerStat :=
  { ContainerID := "c1", Name := "web.1", Image := "nginx" }

/-- A host with the single container `c1`, whose cumulative CPU usage reads 1100. -/
def sampleDockerEnv : DockerEnv :=
  { GetDockerStat := some [sampleContainer]
    getCgroupMountPath := some "/sys/fs/cgroup"
    CgroupMem := fun _ _ => some { MemUsageInBytes := 4096, MemMaxUsageInBytes := 8192 }
    CgroupCPU := fun _ _ => some { User := F64.ofNat 3, System := F64.ofNat 1 }
    CgroupCPUUsageDocker := fun _ => some (F64.ofNat 1100) }

/-- A state left by an earlier cycle that saw the containers `c0` and `c1`. -/
def sampleDockerState : DockerState :=
  { usage_history := [("c0", F64.ofNat 50), ("c1", F64.ofNat 100)], last_time_at := 0 }

/-- The datapoints one iteration of the container loop of `Docker.Collect` appends
for `container`, given the three readings: memory, CPU user, CPU system, and the
percentage when `usage_history` has the container id. -/
def Docker.containerData (instanceID : String) (st : DockerState) (new_last_time_at : Int)
    (container : CgroupDockerStat) (containerMemory : CgroupMemStat) (containerCPU : TimesStat)
    (containerCPUUsage : F64) : List MetricDatum :=
  let dimensions := Docker.dimensions instanceID container
  [{ MetricName := "ContainerMemory", Dimensions := dimensions, Unit := .Bytes,
     Value := F64.ofNat containerMemory.MemUsageInBytes },
   { MetricName := "ContainerCPUUser", Dimensions := dimensions, Unit := .Seconds,
     Value := containerCPU.User },
   { MetricName := "ContainerCPUSystem", Dimensions := dimensions, Unit := .Seconds,
     Value := containerCPU.System }]
  ++ match GoMap.get st.usage_history container.ContainerID with
     | some pastContainerCPUUsage =>
       [{ MetricName := "ContainerCPUUsage", Dimensions := dimensions, Unit := .Percent,
          Value := Docker.percentCPU containerCPUUsage pastContainerCPUUsage
            new_last_time_at st.last_time_at }]
     | none => []

/-- What the claim about one cycle says of the datapoints `chunk` appended for
`container`: their names and units in order, the container's dimensions on each,
the percentage present exactly when `usage_history` has the container id, and
three or four datapoints accordingly. -/
def Docker.chunkFor (instanceID : String) (st : DockerState) (container : CgroupDockerStat)
    (chunk : List MetricDatum) : Prop :=
  chunk.map (fun d => (d.MetricName, d.Unit))
    = [("ContainerMemory", StandardUnit.Bytes), ("ContainerCPUUser", StandardUnit.Seconds),
       ("ContainerCPUSystem", StandardUnit.Seconds)]
      ++ (if (GoMap.get st.usage_history container.ContainerID).isSome
          then [("ContainerCPUUsage", StandardUnit.Percent)] else []) ∧
  (∀ d ∈ chunk, d.Dimensions = Docker.dimensions instanceID container) ∧
  ((∃ d ∈ chunk, d.MetricName = "ContainerCPUUsage")
    ↔ (GoMap.get st.usage_history container.ContainerID).isSome) ∧
  chunk.length = (if (GoMap.get st.usage_history container.ContainerID).isSome then 4 else 3)

/-- The datapoints of a cycle of `sampleDockerEnv` from `sampleDockerState` whose
measurement instant is `1000000000`. -/
def sampleDockerData : List MetricDatum :=
  Docker.containerData "i-0abc" sampleDockerState 1000000000 sampleContainer
    { MemUsageInBytes := 4096, MemMaxUsageInBytes := 8192 }
    { User := F64.ofNat 3, System := F64.ofNat 1 } (F64.ofNat 1100)

/-- The state that cycle leaves when its final `time.Now()` reads `3000000000`. -/
def sampleDockerNext : DockerState :=
  { usage_history := [("c1", F64.ofNat 1100)], last_time_at := 3000000000 }

/-! # Theorems -/

/-! ## The dispatch loop -/

theorem dispatchFrom_of_lt (metricArr : List MetricDatum) (ns : String) (idx : Nat)
    (h : idx < metricArr.length) :
    dispatchFrom metricArr ns idx =
      ((if idx + maxMetricDataNum ≥ metricArr.length then metricArr.drop idx
        else (metricArr.drop idx).take maxMetricDataNum), ns)
        :: dispatchFrom metricArr ns (idx + maxMetricDataNum) := by
  rw [dispatchFrom]
  simp [h]

theorem dispatchFrom_of_ge (metricArr : List MetricDatum) (ns : String) (idx : Nat)
    (h : metricArr.length ≤ idx) : dispatchFrom metricArr ns idx = [] := by
  rw [dispatchFrom]
  simp [Nat.not_lt.mpr h]

/-- What the loop does from index `idx` on, by induction on the number of
datapoints still to send. -/
theorem dispatchFrom_spec (metricArr : List MetricDatum) (ns : String) :
    ∀ (n idx : Nat), metricArr.length - idx = n →
      (dispatchFrom metricArr ns idx).length = (n + 19) / 20 ∧
      (∀ c ∈ dispatchFrom metricArr ns idx, c.2 = ns ∧ c.1 ≠ [] ∧ c.1.length ≤ 20) ∧
      ((dispatchFrom metricArr ns idx).map Prod.fst).flatten = metricArr.drop idx := by
  intro n
  induction n using Nat.strong_induction_on with
  | _ n ih =>
    intro idx hn
    by_cases h : idx < metricArr.length
    · rw [dispatchFrom_of_lt metricArr ns idx h]
      obtain ⟨ih1, ih2, ih3⟩ := ih (metricArr.length - (idx + maxMetricDataNum))
        (by simp only [maxMetricDataNum]; omega) (idx + maxMetricDataNum) rfl
      by_cases hlast : idx + maxMetricDataNum ≥ metricArr.length
      · have hnil : dispatchFrom metricArr ns (idx + maxMetricDataNum) = [] :=
          dispatchFrom_of_ge metricArr ns _ hlast
        simp only [maxMetricDataNum] at hlast hnil ⊢
        rw [hnil]
        simp only [hlast, if_true]
        refine ⟨?_, ?_, ?_⟩
        · simp only [List.length_cons, List.length_nil]
          omega
        · intro c hc
          simp only [List.mem_singleton] at hc
          subst hc
          refine ⟨rfl, ?_, ?_⟩
          · intro hd
            have := congrArg List.length hd
            simp only [List.length_drop, List.length_nil] at this
            omega
          · simp only [List.length_drop]
            omega
        · simp
      · simp only [maxMetricDataNum] at hlast ih1 ih2 ih3 ⊢
        simp only [hlast, if_false]
        have hlt : idx + 20 < metricArr.length := by omega
        refine ⟨?_, ?_, ?_⟩
        · simp only [List.length_cons, ih1]
          omega
        · intro c hc
          rcases List.mem_cons.mp hc with hc | hc
          · subst hc
            refine ⟨rfl, ?_, ?_⟩
            · intro hd
              have := congrArg List.length hd
              simp only [List.length_take, List.length_drop, List.length_nil] at this
              omega
            · simp only [List.length_take, List.length_drop]
              omega
          · exact ih2 c hc
        · simp only [List.map_cons, List.flatten_cons, ih3]
          rw [← List.drop_drop]
          exact List.take_append_drop 20 (metricArr.drop idx)
    · have hge : metricArr.length ≤ idx := Nat.not_lt.mp h
      rw [dispatchFrom_of_ge metricArr ns idx hge]
      refine ⟨?_, ?_, ?_⟩
      · simp only [List.length_nil]
        omega
      · intro c hc
        cases hc
      · simp [List.drop_eq_nil_of_le hge]

/-- Claim C3. The dispatch loop applied to a datapoint list of length `L` issues
exactly `ceil(L/20)` `Publish` calls (`(L + 19) / 20` in natural-number division,
which is the ceiling of the rational `L / 20`), every call carries the caller's
namespace, every published chunk is non-empty and has at most 20 elements, the
chunks concatenated in call order are the original list, and for the empty list
`Publish` is never called. -/
theorem dispatch_chunks (metricArr : List MetricDatum) (ns : String) :
    (dispatch metricArr ns).length = (metricArr.length + 19) / 20 ∧
    (dispatch metricArr ns).length = ⌈(metricArr.length : ℚ) / 20⌉₊ ∧
    (∀ c ∈ dispatch metricArr ns, c.2 = ns ∧ c.1 ≠ [] ∧ c.1.length ≤ maxMetricDataNum) ∧
    ((dispatch metricArr ns).map Prod.fst).flatten = metricArr ∧
    dispatch [] ns = [] := by
  obtain ⟨h1, h2, h3⟩ := dispatchFrom_spec metricArr ns metricArr.length 0 rfl
  refine ⟨h1, ?_, h2, by simpa using h3, ?_⟩
  · unfold dispatch
    rw [h1]
    generalize metricArr.length = L
    apply le_antisymm
    · rcases Nat.eq_zero_or_pos ((L + 19) / 20) with h0 | hpos
      · omega
      · have hlt : (L + 19) / 20 - 1 < ⌈(L : ℚ) / 20⌉₊ := by
          rw [Nat.lt_ceil]
          have h20 : 20 * ((L + 19) / 20 - 1) < L := by omega
          have hq : ((20 * ((L + 19) / 20 - 1) : ℕ) : ℚ) < (L : ℚ) := by exact_mod_cast h20
          rw [lt_div_iff₀ (by norm_num)]
          push_cast at hq ⊢
          linarith
        omega
    · rw [Nat.ceil_le, div_le_iff₀ (by norm_num)]
      have h20 : L ≤ (L + 19) / 20 * 20 := by omega
      exact_mod_cast h20
  · exact dispatchFrom_of_ge [] ns 0 (Nat.le_refl _)

/-! ## The service-name regexp -/

/-- Claim C4. The normalisation `re.ReplaceAllString(name, "")` of `collectStats` maps
the label value `web-3` to `web` and the label value `api_abcd_1_2_3` to `api`. -/
theorem normalize_examples :
    reReplaceAllString "web-3" = "web" ∧ reReplaceAllString "api_abcd_1_2_3" = "api" := by
  decide

/-- Claim C5, the code at a label with a `-digits` group in the middle: for
`db-01-replica`, which ends in the letter `a` and so in neither suffix pattern,
the unanchored first branch of `re` deletes `-01`; the result `db-replica`
differs from the label and is not a prefix of it. -/
theorem normalize_strips_inner_group :
    reReplaceAllString "db-01-replica" = "db-replica" ∧
    "db-01-replica".data.getLast? = some 'a' ∧
    ¬ ("db-replica".data <+: "db-01-replica".data) ∧
    reReplaceAllString "db-01-replica" ≠ "db-01-replica" := by
  decide

/-! ## The drain loop of `Swarm.Collect` -/

/-- Claim C1, the code on two snapshots of the same service: after the drain loop
the entry of `web` is the first snapshot's values (total usage 1, memory 100),
not the sums over the two snapshots (3 and 400); the key set is the set of names
that occurred. -/
theorem aggregate_keeps_first_snapshot :
    GoMap.get (aggregate [sampleWeb1, sampleWeb2]) "web" = some (seedStats sampleWeb1) ∧
    (GoMap.get (aggregate [sampleWeb1, sampleWeb2]) "web").map ServicesStats.TotalUsage
      = some 1 ∧
    sumNamed [sampleWeb1, sampleWeb2] "web" (fun v => v.CPUStats.CPUUsage.TotalUsage) = 3 ∧
    (GoMap.get (aggregate [sampleWeb1, sampleWeb2]) "web").map ServicesStats.MemoryUsage
      = some 100 ∧
    sumNamed [sampleWeb1, sampleWeb2] "web" (fun v => v.MemoryStats.Usage) = 400 ∧
    (aggregate [sampleWeb1, sampleWeb2]).map Prod.fst = ["web"] := by
  decide

/-! ## The CPU-percentage formulas -/

theorem timeSub_ten_seconds (t0 : Int) : timeSub (t0 + 10000000000) t0 = 10000000000 := by
  unfold timeSub
  have h : t0 + 10000000000 - t0 = 10000000000 := by omega
  rw [h]
  decide

/-- Claim C8, as stated: with previous usage 100, current usage 1100 and 10 seconds
between the two instants, the value computed by the formula is not `10.0`. -/
theorem docker_percent_not_ten :
    Docker.percentCPU (F64.ofNat 1100) (F64.ofNat 100) 10000000000 0 ≠ F64.ofNat 10 := by
  decide!

/-- Claim C8, amended: with previous usage 100, current usage 1100 and 10 seconds
(`10e9` nanoseconds) between the previous instant `t0` and the current one, the
formula `(current - previous) / elapsedNanoseconds * 100 * 1e9` evaluates in
float64 to exactly `10000.0`. -/
theorem docker_percent_ten_seconds (t0 : Int) :
    Docker.percentCPU (F64.ofNat 1100) (F64.ofNat 100) (t0 + 10000000000) t0
      = F64.ofNat 10000 ∧
    (Docker.percentCPU (F64.ofNat 1100) (F64.ofNat 100) (t0 + 10000000000) t0).toRat
      = some 10000 := by
  have h : Docker.percentCPU (F64.ofNat 1100) (F64.ofNat 100) (t0 + 10000000000) t0
      = F64.fin false 5497558138880000 (-39) := by
    unfold Docker.percentCPU
    rw [timeSub_ten_seconds]
    decide!
  have h2 : F64.ofNat 10000 = F64.fin false 5497558138880000 (-39) := by decide!
  refine ⟨h.trans h2.symm, ?_⟩
  rw [h]
  simp only [F64.toRat]
  norm_num

theorem F64.div_zero_not_finite (x : F64) (neg : Bool) :
    (F64.div x (F64.fin neg 0 0)).isFinite = false := by
  cases x with
  | fin s m e =>
    by_cases hm : m = 0
    · simp [F64.div, hm, F64.isFinite]
    · simp [F64.div, hm, F64.isFinite]
  | inf s => rfl
  | nan => rfl

theorem F64.mul_not_finite (x y : F64) (hx : x.isFinite = false) :
    (F64.mul x y).isFinite = false := by
  cases x with
  | fin s m e => simp [F64.isFinite] at hx
  | inf s =>
    cases y with
    | fin s2 m2 e2 =>
      by_cases hm : m2 = 0
      · simp [F64.mul, hm, F64.isFinite]
      · simp [F64.mul, hm, F64.isFinite]
    | inf s2 => rfl
    | nan => rfl
  | nan =>
    cases y <;> rfl

theorem F64.ofNat_zero : F64.ofNat 0 = F64.fin false 0 0 := by
  decide

theorem GoMap.mem_of_get {V : Type} (m : GoMap V) (k : String) (v : V)
    (h : GoMap.get m k = some v) : (k, v) ∈ m := by
  induction m with
  | nil => simp [GoMap.get] at h
  | cons p rest ih =>
    obtain ⟨k1, v1⟩ := p
    by_cases hk : k1 = k
    · simp only [GoMap.get, hk, if_true, Option.some.injEq] at h
      subst hk; subst h
      exact List.mem_cons_self _ _
    · simp only [GoMap.get, hk, if_false] at h
      exact List.mem_cons_of_mem _ (ih h)

theorem Swarm.serviceData_subset (instanceID : String) (swarm : GoMap ServicesStats) :
    ∀ (acc : List MetricDatum) (p : String × ServicesStats), p ∈ swarm →
      ∀ d ∈ Swarm.serviceData instanceID p.1 p.2,
        d ∈ swarm.foldl (fun metricArr p => metricArr ++ Swarm.serviceData instanceID p.1 p.2) acc := by
  have hkeep : ∀ (l : GoMap ServicesStats) (acc : List MetricDatum) (d : MetricDatum), d ∈ acc →
      d ∈ l.foldl (fun metricArr p => metricArr ++ Swarm.serviceData instanceID p.1 p.2) acc := by
    intro l
    induction l with
    | nil => intro acc d hd; exact hd
    | cons q rest ih =>
      intro acc d hd
      exact ih _ d (List.mem_append_left _ hd)
  induction swarm with
  | nil => intro acc p hp; cases hp
  | cons q rest ih =>
    intro acc p hp d hd
    rcases List.mem_cons.mp hp with hpq | hpr
    · subst hpq
      exact hkeep rest _ d (List.mem_append_right _ hd)
    · exact ih _ p hpr d hd

/-- Claim C9. For every entry `stats` stored under `name` in the map `swarm` with
`SystemUsage == PreSystemUsage`, whatever its other fields, the loop over the map
appends a `ServiceCPUPercent` datapoint for that service whose value is the
`percentCPU` of the formula, the dispatch loop hands that datapoint to `Publish`,
and that value is not finite: it is NaN or an infinity. -/
theorem service_percent_not_finite (instanceID name : String) (swarm : GoMap ServicesStats)
    (stats : ServicesStats) (hget : GoMap.get swarm name = some stats)
    (hsys : stats.SystemUsage = stats.PreSystemUsage) :
    Swarm.percentDatum instanceID name stats ∈ Swarm.metricArr instanceID swarm ∧
    (∀ ns, ∃ call ∈ dispatch (Swarm.metricArr instanceID swarm) ns,
      Swarm.percentDatum instanceID name stats ∈ call.1) ∧
    (Swarm.percentDatum instanceID name stats).Value = Swarm.percentCPU stats ∧
    (Swarm.percentCPU stats).isFinite = false ∧
    (Swarm.percentCPU stats = .nan ∨ ∃ neg, Swarm.percentCPU stats = .inf neg) := by
  have hfin : (Swarm.percentCPU stats).isFinite = false := by
    unfold Swarm.percentCPU
    have hz : (stats.SystemUsage + 2 ^ 64 - stats.PreSystemUsage) % 2 ^ 64 = 0 := by
      rw [hsys]
      simp
    rw [hz, F64.ofNat_zero]
    exact F64.mul_not_finite _ _ (F64.mul_not_finite _ _ (F64.div_zero_not_finite _ _))
  have hin : Swarm.percentDatum instanceID name stats ∈ Swarm.metricArr instanceID swarm := by
    have hmem := GoMap.mem_of_get swarm name stats hget
    apply Swarm.serviceData_subset instanceID swarm [] (name, stats) hmem
    simp [Swarm.serviceData, constructMetricDatum, Swarm.percentDatum]
  refine ⟨hin, ?_, rfl, hfin, ?_⟩
  · intro ns
    have hd := (dispatchFrom_spec (Swarm.metricArr instanceID swarm) ns
      (Swarm.metricArr instanceID swarm).length 0 rfl).2.2
    simp only [List.drop_zero] at hd
    rw [← hd] at hin
    obtain ⟨chunk, hchunk, hdat⟩ := List.mem_flatten.mp hin
    obtain ⟨call, hcall, hfst⟩ := List.mem_map.mp hchunk
    exact ⟨call, hcall, by rw [hfst]; exact hdat⟩
  · cases hv : Swarm.percentCPU stats with
    | fin s m e => rw [hv] at hfin; simp [F64.isFinite] at hfin
    | inf s => exact Or.inr ⟨s, rfl⟩
    | nan => exact Or.inl rfl

theorem service_percent_not_finite_witness :
    GoMap.get [("web", sampleIdle)] "web" = some sampleIdle ∧
    sampleIdle.SystemUsage = sampleIdle.PreSystemUsage ∧
    Swarm.percentDatum "i-0abc" "web" sampleIdle
      ∈ Swarm.metricArr "i-0abc" [("web", sampleIdle)] ∧
    (Swarm.percentCPU sampleIdle).isFinite = false :=
  ⟨by decide, by decide,
    (service_percent_not_finite "i-0abc" "web" [("web", sampleIdle)] sampleIdle (by decide)
      (by decide)).1,
    (service_percent_not_finite "i-0abc" "web" [("web", sampleIdle)] sampleIdle (by decide)
      (by decide)).2.2.2.1⟩

/-! ## Go maps -/

theorem GoMap.get_set {V : Type} (m : GoMap V) (k : String) (v : V) (k' : String) :
    GoMap.get (GoMap.set m k v) k' = if k = k' then some v else GoMap.get m k' := by
  induction m with
  | nil => simp [GoMap.set, GoMap.get]
  | cons p rest ih =>
    obtain ⟨k1, v1⟩ := p
    by_cases h1 : k1 = k
    · subst h1
      by_cases h2 : k1 = k' <;> simp [GoMap.set, GoMap.get, h2]
    · by_cases h2 : k = k'
      · subst h2
        simp [GoMap.set, GoMap.get, h1, ih]
      · simp [GoMap.set, GoMap.get, h1, h2, ih]

/-! ## Arrival order in `Swarm.Collect` -/

theorem aggregateStep_get (swarm : GoMap ServicesStats) (v : types.StatsJSON) (name : String) :
    GoMap.get (aggregateStep swarm v) name =
      (GoMap.get swarm name).orElse fun _ =>
        if v.Name = name then some (seedStats v) else none := by
  unfold aggregateStep
  cases hv : GoMap.get swarm v.Name with
  | none =>
    show GoMap.get (GoMap.set swarm v.Name (seedStats v)) name = _
    rw [GoMap.get_set]
    by_cases hn : v.Name = name
    · subst hn
      simp [hv]
    · cases hg : GoMap.get swarm name <;> simp [hn]
  | some entry =>
    show GoMap.get swarm name = _
    by_cases hn : v.Name = name
    · subst hn
      simp [hv]
    · cases hg : GoMap.get swarm name <;> simp [hn]

theorem aggregate_foldl_get (received : List types.StatsJSON) (name : String) :
    ∀ swarm : GoMap ServicesStats,
      GoMap.get (received.foldl aggregateStep swarm) name =
        (GoMap.get swarm name).orElse fun _ => (firstNamed received name).map seedStats := by
  induction received with
  | nil =>
    intro swarm
    cases hg : GoMap.get swarm name <;> simp [firstNamed, hg]
  | cons v rest ih =>
    intro swarm
    rw [List.foldl_cons, ih, aggregateStep_get]
    cases hg : GoMap.get swarm name with
    | some e => simp
    | none =>
      by_cases hn : v.Name = name
      · simp [firstNamed, hn]
      · simp only [firstNamed] at ih ⊢
        simp [hn]

/-- What the drain loop leaves under `name`: the values of the first snapshot
that carried the name. -/
theorem aggregate_get (received : List types.StatsJSON) (name : String) :
    GoMap.get (aggregate received) name = (firstNamed received name).map seedStats := by
  unfold aggregate
  rw [aggregate_foldl_get]
  simp [GoMap.get]

/-- Claim C2, as stated: two arrival orders of the same two snapshots of service
`web`, which agree in all six summed fields and differ in `OnlineCPUs` (2 and 4),
give different entries for `web`, and different `percentCPU`. -/
theorem aggregate_order_dependent :
    [sampleWeb1, sampleWeb4Cpu].Perm [sampleWeb4Cpu, sampleWeb1] ∧
    GoMap.get (aggregate [sampleWeb1, sampleWeb4Cpu]) "web"
      ≠ GoMap.get (aggregate [sampleWeb4Cpu, sampleWeb1]) "web" ∧
    (GoMap.get (aggregate [sampleWeb1, sampleWeb4Cpu]) "web").map ServicesStats.OnlineCPUs
      = some 2 ∧
    (GoMap.get (aggregate [sampleWeb4Cpu, sampleWeb1]) "web").map ServicesStats.OnlineCPUs
      = some 4 ∧
    (GoMap.get (aggregate [sampleWeb1, sampleWeb4Cpu]) "web").map Swarm.percentCPU
      ≠ (GoMap.get (aggregate [sampleWeb4Cpu, sampleWeb1]) "web").map Swarm.percentCPU := by
  refine ⟨List.Perm.swap _ _ _, ?_, ?_, ?_, ?_⟩
  · decide
  · decide
  · decide
  · decide!

theorem firstNamed_some (received : List types.StatsJSON) (name : String) (v : types.StatsJSON)
    (h : firstNamed received name = some v) : v ∈ received ∧ v.Name = name := by
  unfold firstNamed at h
  exact ⟨List.mem_of_find?_eq_some h, by simpa using List.find?_some h⟩

theorem firstNamed_isSome_perm (xs ys : List types.StatsJSON) (hperm : xs.Perm ys)
    (name : String) : (firstNamed xs name).isSome = (firstNamed ys name).isSome := by
  unfold firstNamed
  rw [Bool.eq_iff_iff, List.find?_isSome, List.find?_isSome]
  constructor
  · rintro ⟨v, hv, hn⟩
    exact ⟨v, hperm.mem_iff.mp hv, hn⟩
  · rintro ⟨v, hv, hn⟩
    exact ⟨v, hperm.mem_iff.mpr hv, hn⟩

/-- The `OnlineCPUs` the drain loop leaves under `name`: that of the first snapshot
that carried the name. -/
theorem aggregate_onlineCPUs (received : List types.StatsJSON) (name : String) :
    (GoMap.get (aggregate received) name).map ServicesStats.OnlineCPUs
      = (firstNamed received name).map fun v => v.CPUStats.OnlineCPUs := by
  rw [aggregate_get]
  cases firstNamed received name <;> simp [seedStats]

/-- Claim C2, amended: for two snapshot sequences that are permutations of one
another the resulting maps have the same key set; the `OnlineCPUs` of an entry is
never summed, it is the `OnlineCPUs` of the first-arriving snapshot of the
service; so the two entries of a service have the same `OnlineCPUs` whenever the
first arrivals of the service in the two sequences report the same `OnlineCPUs`,
and in particular whenever all snapshots of the service report the same
`OnlineCPUs`. -/
theorem aggregate_perm_keys_onlineCPUs (xs ys : List types.StatsJSON) (hperm : xs.Perm ys) :
    (∀ name, (GoMap.get (aggregate xs) name).isSome = (GoMap.get (aggregate ys) name).isSome) ∧
    (∀ name, (GoMap.get (aggregate xs) name).map ServicesStats.OnlineCPUs
      = (firstNamed xs name).map fun v => v.CPUStats.OnlineCPUs) ∧
    (∀ name, (GoMap.get (aggregate ys) name).map ServicesStats.OnlineCPUs
      = (firstNamed ys name).map fun v => v.CPUStats.OnlineCPUs) ∧
    (∀ name, (firstNamed xs name).map (fun v => v.CPUStats.OnlineCPUs)
        = (firstNamed ys name).map (fun v => v.CPUStats.OnlineCPUs) →
      (GoMap.get (aggregate xs) name).map ServicesStats.OnlineCPUs
        = (GoMap.get (aggregate ys) name).map ServicesStats.OnlineCPUs) ∧
    (∀ name cpus, (∀ v ∈ xs, v.Name = name → v.CPUStats.OnlineCPUs = cpus) →
      (GoMap.get (aggregate xs) name).map ServicesStats.OnlineCPUs
        = (GoMap.get (aggregate ys) name).map ServicesStats.OnlineCPUs) := by
  refine ⟨?_, aggregate_onlineCPUs xs, aggregate_onlineCPUs ys, ?_, ?_⟩
  · intro name
    rw [aggregate_get, aggregate_get, Option.isSome_map', Option.isSome_map']
    exact firstNamed_isSome_perm xs ys hperm name
  · intro name hfirst
    rw [aggregate_onlineCPUs, aggregate_onlineCPUs, hfirst]
  · intro name cpus hall
    rw [aggregate_onlineCPUs, aggregate_onlineCPUs]
    have hkeys := firstNamed_isSome_perm xs ys hperm name
    cases hx : firstNamed xs name with
    | none =>
      cases hy : firstNamed ys name with
      | none => rfl
      | some vy => rw [hx, hy] at hkeys; simp at hkeys
    | some vx =>
      cases hy : firstNamed ys name with
      | none => rw [hx, hy] at hkeys; simp at hkeys
      | some vy =>
        obtain ⟨hxmem, hxname⟩ := firstNamed_some xs name vx hx
        obtain ⟨hymem, hyname⟩ := firstNamed_some ys name vy hy
        have h1 := hall vx hxmem hxname
        have h2 := hall vy (hperm.mem_iff.mpr hymem) hyname
        simp [h1, h2]

theorem aggregate_perm_keys_onlineCPUs_witness :
    [sampleWeb1, sampleWeb2].Perm [sampleWeb2, sampleWeb1] ∧
    (∀ v ∈ [sampleWeb1, sampleWeb2], v.Name = "web" → v.CPUStats.OnlineCPUs = 2) ∧
    (GoMap.get (aggregate [sampleWeb1, sampleWeb2]) "web").map ServicesStats.OnlineCPUs
      = (GoMap.get (aggregate [sampleWeb2, sampleWeb1]) "web").map ServicesStats.OnlineCPUs ∧
    (GoMap.get (aggregate [sampleWeb1, sampleWeb2]) "web").isSome
      = (GoMap.get (aggregate [sampleWeb2, sampleWeb1]) "web").isSome :=
  ⟨List.Perm.swap _ _ _, by decide,
    (aggregate_perm_keys_onlineCPUs [sampleWeb1, sampleWeb2] [sampleWeb2, sampleWeb1]
      (List.Perm.swap _ _ _)).2.2.2.2 "web" 2 (by decide),
    (aggregate_perm_keys_onlineCPUs [sampleWeb1, sampleWeb2] [sampleWeb2, sampleWeb1]
      (List.Perm.swap _ _ _)).1 "web"⟩

/-! ## One cycle of `Docker.Collect` -/

/-- A completed iteration of the container loop: the three readings succeeded,
the container's datapoints were appended and its usage was recorded. -/
theorem Docker.collectContainer_some (env : DockerEnv) (instanceID base : String)
    (st : DockerState) (t : Int) (acc res : List MetricDatum × GoMap F64)
    (container : CgroupDockerStat)
    (h : Docker.collectContainer env instanceID base st t acc container = some res) :
    ∃ mem cpu usage,
      env.CgroupCPUUsageDocker container.ContainerID = some usage ∧
      res.1 = acc.1 ++ Docker.containerData instanceID st t container mem cpu usage ∧
      res.2 = GoMap.set acc.2 container.ContainerID usage := by
  unfold Docker.collectContainer at h
  cases hm : env.CgroupMem container.ContainerID (base ++ "/memory/docker") with
  | none => simp [hm] at h
  | some mem =>
    cases hc : env.CgroupCPU container.ContainerID (base ++ "/cpuacct/docker") with
    | none => simp [hm, hc] at h
    | some cpu =>
      cases hu : env.CgroupCPUUsageDocker container.ContainerID with
      | none => simp [hm, hc, hu] at h
      | some usage =>
        cases hp : GoMap.get st.usage_history container.ContainerID with
        | none =>
          simp only [hm, hc, hu, hp, Option.some_bind, Option.some.injEq] at h
          subst h
          exact ⟨mem, cpu, usage, rfl,
            by simp [Docker.containerData, constructMetricDatum, hp], rfl⟩
        | some past =>
          simp only [hm, hc, hu, hp, Option.some_bind, Option.some.injEq] at h
          subst h
          exact ⟨mem, cpu, usage, rfl,
            by simp [Docker.containerData, constructMetricDatum, hp], rfl⟩

theorem Docker.containerData_chunkFor (instanceID : String) (st : DockerState) (t : Int)
    (container : CgroupDockerStat) (mem : CgroupMemStat) (cpu : TimesStat) (usage : F64) :
    Docker.chunkFor instanceID st container
      (Docker.containerData instanceID st t container mem cpu usage) := by
  unfold Docker.chunkFor Docker.containerData
  cases hp : GoMap.get st.usage_history container.ContainerID with
  | none => simp
  | some past => simp

/-- The container loop as a whole: one chunk of datapoints per container, in the
order of the container list, appended to the datapoints already there. -/
theorem Docker.collectAll_chunks (env : DockerEnv) (instanceID base : String)
    (st : DockerState) (t : Int) (containers : List CgroupDockerStat) :
    ∀ acc res : List MetricDatum × GoMap F64,
      Docker.collectAll env instanceID base st t acc containers = some res →
      ∃ chunks : List (List MetricDatum),
        res.1 = acc.1 ++ chunks.flatten ∧
        List.Forall₂ (Docker.chunkFor instanceID st) containers chunks := by
  induction containers with
  | nil =>
    intro acc res h
    simp only [Docker.collectAll, Option.some.injEq] at h
    subst h
    exact ⟨[], by simp, List.Forall₂.nil⟩
  | cons c rest ih =>
    intro acc res h
    simp only [Docker.collectAll] at h
    cases h1 : Docker.collectContainer env instanceID base st t acc c with
    | none => simp [h1] at h
    | some acc1 =>
      simp only [h1, Option.some_bind] at h
      obtain ⟨mem, cpu, usage, _, hdata, _⟩ :=
        Docker.collectContainer_some env instanceID base st t acc acc1 c h1
      obtain ⟨chunks, hres, hall⟩ := ih acc1 res h
      refine ⟨Docker.containerData instanceID st t c mem cpu usage :: chunks, ?_, ?_⟩
      · rw [hres, hdata]
        simp
      · exact List.Forall₂.cons (Docker.containerData_chunkFor instanceID st t c mem cpu usage) hall

/-- The usage map the container loop builds: under a listed container id the
usage read for it, under any other id what the map held before the loop. -/
theorem Docker.collectAll_history (env : DockerEnv) (instanceID base : String)
    (st : DockerState) (t : Int) (containers : List CgroupDockerStat) :
    ∀ acc res : List MetricDatum × GoMap F64,
      Docker.collectAll env instanceID base st t acc containers = some res →
      (∀ c ∈ containers, (env.CgroupCPUUsageDocker c.ContainerID).isSome) ∧
      ∀ id, GoMap.get res.2 id =
        if id ∈ containers.map CgroupDockerStat.ContainerID then env.CgroupCPUUsageDocker id
        else GoMap.get acc.2 id := by
  induction containers with
  | nil =>
    intro acc res h
    simp only [Docker.collectAll, Option.some.injEq] at h
    subst h
    simp
  | cons c rest ih =>
    intro acc res h
    simp only [Docker.collectAll] at h
    cases h1 : Docker.collectContainer env instanceID base st t acc c with
    | none => simp [h1] at h
    | some acc1 =>
      simp only [h1, Option.some_bind] at h
      obtain ⟨mem, cpu, usage, husage, _, hhist⟩ :=
        Docker.collectContainer_some env instanceID base st t acc acc1 c h1
      obtain ⟨hread, hget⟩ := ih acc1 res h
      constructor
      · intro c' hc'
        rcases List.mem_cons.mp hc' with hc' | hc'
        · subst hc'
          simp [husage]
        · exact hread c' hc'
      · intro id
        rw [hget id, hhist, GoMap.get_set]
        by_cases hid : c.ContainerID = id
        · subst hid
          simp [husage]
        · have hid' : ¬ id = c.ContainerID := fun e => hid e.symm
          simp [hid, hid']

/-- A completed cycle, taken apart: the container list, the loop's result, the
new state and the `Publish` calls. -/
theorem Docker.Collect_some (env : DockerEnv) (instanceID ns : String) (st st' : DockerState)
    (now1 now2 : Int) (calls : List PublishCall)
    (h : Docker.Collect env instanceID ns st now1 now2 = some (st', calls)) :
    ∃ containers base acc,
      env.GetDockerStat = some containers ∧
      Docker.collectAll env instanceID base st now1 ([], []) containers = some acc ∧
      st' = { usage_history := acc.2, last_time_at := now2 } ∧
      calls = dispatch acc.1 ns := by
  unfold Docker.Collect at h
  cases hc : env.GetDockerStat with
  | none => simp [hc] at h
  | some containers =>
    cases hb : env.getCgroupMountPath with
    | none => simp [hc, hb] at h
    | some base =>
      cases ha : Docker.collectAll env instanceID base st now1 ([], []) containers with
      | none => simp [hc, hb, ha] at h
      | some acc =>
        simp only [hc, hb, ha, Option.some_bind, Option.map_some', Option.some.injEq,
          Prod.mk.injEq] at h
        exact ⟨containers, base, acc, rfl, ha, h.1.symm, h.2.symm⟩

/-- Claim C6. In a completed cycle of `Docker.Collect` over the container list
`containers`, the datapoints handed to `Publish` are, in order, one chunk per
listed container, and each chunk is as `Docker.chunkFor` says: one
`ContainerMemory`, one `ContainerCPUUser`, one `ContainerCPUSystem` datapoint,
followed by one `ContainerCPUUsage` (percent) datapoint if and only if the
container id is a key of the `usage_history` the cycle started from; so a
container without a prior entry contributes exactly 3 datapoints and one with a
prior entry exactly 4. -/
theorem docker_cycle_datapoints (env : DockerEnv) (instanceID ns : String)
    (st st' : DockerState) (now1 now2 : Int) (containers : List CgroupDockerStat)
    (calls : List PublishCall)
    (hlist : env.GetDockerStat = some containers)
    (h : Docker.Collect env instanceID ns st now1 now2 = some (st', calls)) :
    ∃ chunks : List (List MetricDatum),
      (calls.map Prod.fst).flatten = chunks.flatten ∧
      List.Forall₂ (Docker.chunkFor instanceID st) containers chunks := by
  obtain ⟨containers', base, acc, hlist', hloop, _, hcalls⟩ :=
    Docker.Collect_some env instanceID ns st st' now1 now2 calls h
  rw [hlist] at hlist'
  cases hlist'
  obtain ⟨chunks, hres, hall⟩ :=
    Docker.collectAll_chunks env instanceID base st now1 containers ([], []) acc hloop
  refine ⟨chunks, ?_, hall⟩
  rw [hcalls]
  have hd := (dispatchFrom_spec acc.1 ns acc.1.length 0 rfl).2.2
  simp only [List.drop_zero] at hd
  unfold dispatch
  rw [hd, hres]
  simp

/-- Claim C7. After a completed cycle of `Docker.Collect` over the container list
`containers`, whatever `usage_history` held before: a container id is a key of
the new `usage_history` exactly when it is listed in the cycle, every listed
container maps to the cumulative CPU usage read for it in the cycle, and an id
that was a key before but is not listed is no longer a key. -/
theorem docker_cycle_replaces_history (env : DockerEnv) (instanceID ns : String)
    (st st' : DockerState) (now1 now2 : Int) (containers : List CgroupDockerStat)
    (calls : List PublishCall)
    (hlist : env.GetDockerStat = some containers)
    (h : Docker.Collect env instanceID ns st now1 now2 = some (st', calls)) :
    (∀ id, (GoMap.get st'.usage_history id).isSome
      ↔ id ∈ containers.map CgroupDockerStat.ContainerID) ∧
    (∀ c ∈ containers, (GoMap.get st'.usage_history c.ContainerID).isSome ∧
      GoMap.get st'.usage_history c.ContainerID = env.CgroupCPUUsageDocker c.ContainerID) ∧
    (∀ id, (GoMap.get st.usage_history id).isSome →
      id ∉ containers.map CgroupDockerStat.ContainerID →
      GoMap.get st'.usage_history id = none) := by
  obtain ⟨containers', base, acc, hlist', hloop, hst, _⟩ :=
    Docker.Collect_some env instanceID ns st st' now1 now2 calls h
  rw [hlist] at hlist'
  cases hlist'
  obtain ⟨hread, hget⟩ :=
    Docker.collectAll_history env instanceID base st now1 containers ([], []) acc hloop
  subst hst
  have hkey : ∀ id, (GoMap.get acc.2 id).isSome
      ↔ id ∈ containers.map CgroupDockerStat.ContainerID := by
    intro id
    rw [hget id]
    by_cases hid : id ∈ containers.map CgroupDockerStat.ContainerID
    · obtain ⟨c, hc, hcid⟩ := List.mem_map.mp hid
      have := hread c hc
      rw [hcid] at this
      simp [hid, this]
    · simp [hid, GoMap.get]
  refine ⟨hkey, ?_, ?_⟩
  · intro c hc
    have hid : c.ContainerID ∈ containers.map CgroupDockerStat.ContainerID :=
      List.mem_map.mpr ⟨c, hc, rfl⟩
    refine ⟨(hkey _).mpr hid, ?_⟩
    show GoMap.get acc.2 c.ContainerID = _
    rw [hget]
    simp [hid]
  · intro id _ hid
    show GoMap.get acc.2 id = none
    rw [hget]
    simp [hid, GoMap.get]

theorem sampleDocker_cycle :
    Docker.Collect sampleDockerEnv "i-0abc" "AWS/Docker" sampleDockerState 1000000000 3000000000
      = some (sampleDockerNext, dispatch sampleDockerData "AWS/Docker") := by
  rfl

theorem docker_cycle_datapoints_witness :
    ∃ chunks : List (List MetricDatum),
      ((dispatch sampleDockerData "AWS/Docker").map Prod.fst).flatten = chunks.flatten ∧
      List.Forall₂ (Docker.chunkFor "i-0abc" sampleDockerState) [sampleContainer] chunks :=
  docker_cycle_datapoints sampleDockerEnv "i-0abc" "AWS/Docker" sampleDockerState
    sampleDockerNext 1000000000 3000000000 [sampleContainer]
    (dispatch sampleDockerData "AWS/Docker") rfl sampleDocker_cycle

theorem docker_cycle_replaces_history_witness :
    (GoMap.get sampleDockerState.usage_history "c0").isSome ∧
    "c0" ∉ [sampleContainer].map CgroupDockerStat.ContainerID ∧
    GoMap.get sampleDockerNext.usage_history "c0" = none :=
  ⟨by decide, by decide,
    (docker_cycle_replaces_history sampleDockerEnv "i-0abc" "AWS/Docker" sampleDockerState
      sampleDockerNext 1000000000 3000000000 [sampleContainer]
      (dispatch sampleDockerData "AWS/Docker") rfl sampleDocker_cycle).2.2 "c0"
      (by decide) (by decide)⟩

/-- Claim C10, the code on a cycle whose measurement instant `new_last_time_at` is
the reading `1000000000` and whose final `time.Now()` reads `3000000000`: the
`last_time_at` it stores is the final reading, not the measurement instant, so a
next cycle measuring at `11000000000` divides by 8 seconds although 10 seconds
separate the two measurement instants. -/
theorem docker_cycle_stores_final_reading :
    (Docker.Collect sampleDockerEnv "i-0abc" "AWS/Docker" sampleDockerState
      1000000000 3000000000).map (fun r => r.1.last_time_at) = some 3000000000 ∧
    (Docker.Collect sampleDockerEnv "i-0abc" "AWS/Docker" sampleDockerState
      1000000000 3000000000).map (fun r => r.1.last_time_at) ≠ some 1000000000 ∧
    timeSub 11000000000 sampleDockerNext.last_time_at = 8000000000 ∧
    timeSub 11000000000 1000000000 = 10000000000 := by
  rw [sampleDocker_cycle]
  decide

end Metrics
